import Mathlib

/-!
Verification development for the `thingino_onvif` integration.

The definitions below are shallow embeddings of the Python sources:
* `src/thingino_onvif/device.py` — PTZ coordinate mapping, the ONVIF
  call/retry primitive, PTZ fault handling, Thingino extras parsing and
  toggle pairing, and the Thingino-PTZ-mode heuristic;
* `src/thingino_onvif/thingino_http.py` — the HTTP payload parsing helpers.

Python `float` values are modelled as `ℚ`; Python's `round` (round half to
even on the exact value) is modelled by `pyRound`.  Python `str` operations
(`strip`, `lstrip`, `lower`, `startswith`, substring membership, `split`)
are modelled over `List Char`.
-/

namespace ThinginoOnvif

/-! ### Python string primitives -/

/-- Characters treated as whitespace by Python's `str.strip()` (ASCII subset). -/
def isPySpace (c : Char) : Bool :=
  c = ' ' || c = '\t' || c = '\n' || c = '\r' || c = '\x0b' || c = '\x0c'

/-- Drop trailing characters satisfying `p` (helper for `strip`). -/
def dropTrailing (p : Char → Bool) (l : List Char) : List Char :=
  (l.reverse.dropWhile p).reverse

/-- Python `str.strip()` on the underlying character list. -/
def pyStripList (l : List Char) : List Char :=
  dropTrailing isPySpace (l.dropWhile isPySpace)

/-- Python `str.strip()`. -/
def pyStrip (s : String) : String :=
  String.mk (pyStripList s.data)

/-- Python `str.lstrip()`. -/
def pyLStrip (s : String) : String :=
  String.mk (s.data.dropWhile isPySpace)

/-- Python `str.strip(",")`: remove leading and trailing commas. -/
def pyStripCommas (s : String) : String :=
  String.mk (dropTrailing (fun c => c = ',') (s.data.dropWhile (fun c => c = ',')))

/-- Python `str.lower()` (ASCII model). -/
def pyLower (s : String) : String :=
  String.mk (s.data.map Char.toLower)

/-- Python `str.startswith(pre)`. -/
def pyStartswith (s pre : String) : Bool :=
  pre.data.isPrefixOf s.data

/-- Scan for `pat` as a contiguous sublist. -/
def listInfix (pat : List Char) : List Char → Bool
  | [] => pat.isEmpty
  | c :: cs => pat.isPrefixOf (c :: cs) || listInfix pat cs

/-- Python substring membership `sub in s`. -/
def strContains (s sub : String) : Bool :=
  listInfix sub.data s.data

/-- Python `str.split(sep)` for a one-character separator. -/
def pySplitChar (s : String) (sep : Char) : List String :=
  (s.data.splitOn sep).map String.mk

/-! ### Python `round` (round half to even, on the exact rational value) -/

/-- Python's built-in `round` to an integer: nearest integer, ties to even. -/
def pyRound (x : ℚ) : ℤ :=
  let f : ℤ := ⌊x⌋
  let r : ℚ := x - (f : ℚ)
  if r < 1/2 then f
  else if 1/2 < r then f + 1
  else if f % 2 = 0 then f else f + 1

/-! ### PTZ mapping helpers (`device.py` lines 751–802) -/

/-- `_ptz_range_size` (device.py:751). -/
def ptz_range_size (min_val max_val : Option ℚ) : Option ℚ :=
  match min_val, max_val with
  | some m, some M => some (M - m)
  | _, _ => none

/-- `_ptz_max_step` (device.py:756): `max(abs(min), abs(max), abs(max - min))`. -/
def ptz_max_step (min_val max_val : Option ℚ) : Option ℚ :=
  match min_val, max_val with
  | some m, some M => some (max |m| (max |M| |M - m|))
  | _, _ => none

/-- `_ptz_clamp` (device.py:761). -/
def ptz_clamp (value : ℚ) (min_val max_val : Option ℚ) : ℚ :=
  let v1 := match min_val with
    | some m => max value m
    | none => value
  match max_val with
  | some M => min v1 M
  | none => v1

/-- `_ptz_is_normalized` (device.py:768): `-1.001 <= value <= 1.001`
(the float literal `1.001` is modelled by the rational `1001/1000`). -/
def ptz_is_normalized (value : Option ℚ) : Bool :=
  match value with
  | none => false
  | some v => decide (-(1001/1000 : ℚ) ≤ v ∧ v ≤ 1001/1000)

/-- `_ptz_normalize_to_unit` (device.py:773). -/
def ptz_normalize_to_unit (value : ℚ) (min_val : Option ℚ) : ℚ :=
  match min_val with
  | some m => if 0 ≤ m ∧ 0 ≤ value ∧ value ≤ 1 then value else (value + 1) / 2
  | none => (value + 1) / 2

/-- `_ptz_map_relative` (device.py:779). -/
def ptz_map_relative (value : ℚ) (min_val max_val : Option ℚ) : ℚ :=
  match ptz_max_step min_val max_val with
  | none => value
  | some max_step =>
    let steps : ℚ :=
      if ptz_is_normalized (some value) then (pyRound (value * max_step) : ℚ)
      else (pyRound value : ℚ)
    let steps : ℚ :=
      if steps = 0 ∧ value ≠ 0 then (if 0 < value then 1 else -1) else steps
    max (-max_step) (min max_step steps)

/-- `_ptz_map_absolute` (device.py:793). -/
def ptz_map_absolute (value : ℚ) (min_val max_val : Option ℚ) : ℚ :=
  match min_val, max_val with
  | some m, some M =>
    let steps : ℚ :=
      if ptz_is_normalized (some value) then
        (pyRound (m + ptz_normalize_to_unit value (some m) * (M - m)) : ℚ)
      else (pyRound value : ℚ)
    ptz_clamp steps (some m) (some M)
  | _, _ => value

/-! ### Transport call primitive (`device.py` lines 510–547)

`_async_onvif_call` invokes a wrapped operation up to `retries + 1` times.
Its `except` clause names exactly `aiohttp.client_exceptions.ServerDisconnectedError`;
aiohttp timeout errors (`ServerTimeoutError`, `asyncio.TimeoutError`) are sibling
classes, not subclasses of `ServerDisconnectedError`, so the model gives them a
separate outcome constructor that the handler does not catch.  One attempt of the
wrapped coroutine is modelled as a function from the attempt index to an outcome. -/

/-- What one invocation of the wrapped ONVIF operation does. -/
inductive OnvifOutcome (α : Type) where
  | ok (value : α)
  | serverDisconnected (err : String)
  | timeout (err : String)
  | otherError (err : String)
deriving DecidableEq

/-- The retry/reset counters owned by `ONVIFDevice` (`onvif_retry_count`,
`onvif_reset_count`). -/
structure OnvifState where
  retryCount : Nat
  resetCount : Nat
deriving DecidableEq

/-- How `_async_onvif_call` terminates, seen by its caller. `noReturn` models the
Python `for` loop falling through (returning `None`), which is unreachable. -/
inductive OnvifCallResult (α : Type) where
  | ok (value : α)
  | raisedDisconnect (err : String)
  | raisedTimeout (err : String)
  | raisedOther (err : String)
  | noReturn
deriving DecidableEq

/-- `_async_reset_onvif_client` (device.py:532): increments `onvif_reset_count` and
rebuilds the client/session.  The client rebuild and the nested
`update_xaddrs` call are modelled as succeeding. -/
def resetOnvifClient (st : OnvifState) : OnvifState :=
  { st with resetCount := st.resetCount + 1 }

/-- The `for attempt in range(retries + 1)` loop body of `_async_onvif_call`
(device.py:514–530).  `remaining` is the number of loop iterations left; the
returned `Nat` counts invocations of the wrapped operation. -/
def onvifCallLoop (f : Nat → OnvifOutcome α) (retries : Nat) :
    Nat → Nat → OnvifState → OnvifCallResult α × OnvifState × Nat
  | _, 0, st => (.noReturn, st, 0)
  | attempt, remaining + 1, st =>
    match f attempt with
    | .ok v => (.ok v, st, 1)
    | .serverDisconnected e =>
      let st1 : OnvifState := { st with retryCount := st.retryCount + 1 }
      if retries ≤ attempt then (.raisedDisconnect e, st1, 1)
      else
        let st2 := resetOnvifClient st1
        let out := onvifCallLoop f retries (attempt + 1) remaining st2
        (out.1, out.2.1, out.2.2 + 1)
    | .timeout e => (.raisedTimeout e, st, 1)
    | .otherError e => (.raisedOther e, st, 1)

/-- `_async_onvif_call` (device.py:510) with its default `retries=2` supplied by
callers explicitly. -/
def asyncOnvifCall (f : Nat → OnvifOutcome α) (retries : Nat) (st : OnvifState) :
    OnvifCallResult α × OnvifState × Nat :=
  onvifCallLoop f retries 0 (retries + 1) st

/-! ### PTZ fault handling (`device.py` lines 1053–1063)

`async_perform_ptz` wraps the whole command dispatch in
`try: ... except ONVIFError as err:`; the handler classifies the fault by its
reason text and always returns normally. -/

/-- A device-reported `ONVIFError`: optional `reason` attribute plus `str(err)`. -/
structure OnvifFault where
  reason : Option String
  message : String
deriving DecidableEq

/-- `reason = getattr(err, "reason", "") or str(err)` (device.py:1054). -/
def faultReasonText (err : OnvifFault) : String :=
  match err.reason with
  | some r => if r = "" then err.message else r
  | none => err.message

/-- How a PTZ command dispatch ends, from the caller's point of view.
`reraised` would be an exception escaping `async_perform_ptz`. -/
inductive PtzCommandOutcome where
  | completed
  | noopInvalidPosition
  | loggedCapabilityMismatch
  | loggedError
  | reraised (err : OnvifFault)
deriving DecidableEq

/-- The `except ONVIFError` handler of `async_perform_ptz` (device.py:1053–1063). -/
def handlePtzFault (err : OnvifFault) : PtzCommandOutcome :=
  let reason := faultReasonText err
  if strContains reason "Invalid position" then .noopInvalidPosition
  else if strContains reason "Bad Request" then .loggedCapabilityMismatch
  else .loggedError

/-- `async_perform_ptz` seen at the granularity of its try/except block: the
dispatched move either succeeds or raises an `ONVIFError`, which the handler
absorbs. -/
def performPtzOutcome (moveResult : Except OnvifFault Unit) : PtzCommandOutcome :=
  match moveResult with
  | .ok _ => .completed
  | .error err => handlePtzFault err

/-! ### Thingino PTZ mode heuristic (`device.py` lines 728–749) -/

/-- The per-axis PTZ limits (`PTZLimits` dataclass; models.py is not among the
given sources, the fields are those read and written by device.py).  `none`
means the axis bound is absent. -/
structure PTZLimits where
  pan_min : Option ℚ
  pan_max : Option ℚ
  tilt_min : Option ℚ
  tilt_max : Option ℚ
  zoom_min : Option ℚ
  zoom_max : Option ℚ
deriving DecidableEq

/-- The hint tokens of device.py:735. -/
def thinginoHintTokens : List String :=
  ["thingino", "ingenic", "t31", "sc2336"]

/-- `" ".join(part for part in (manufacturer, model) if part).lower()`
(device.py:732–734); an empty string is the falsy value filtered out. -/
def thinginoModelHint (manufacturer model : String) : String :=
  pyLower (String.intercalate " " (List.filter (fun p => p ≠ "") [manufacturer, model]))

/-- `_maybe_enable_thingino_ptz` (device.py:728), returning the new value of
`self.thingino_ptz_mode`. -/
def maybeEnableThinginoPtz (thinginoPtzMode : Bool) (manufacturer model : String)
    (extrasSource : Option String) (limits : PTZLimits) : Bool :=
  if thinginoPtzMode then thinginoPtzMode
  else
    let modelHint := thinginoModelHint manufacturer model
    if thinginoHintTokens.any (fun tok => strContains modelHint tok) then true
    else if extrasSource.isSome then true
    else
      [(limits.pan_min, limits.pan_max), (limits.tilt_min, limits.tilt_max)].any
        (fun p =>
          match p.1, p.2 with
          | some min_val, some max_val => decide (0 ≤ min_val ∧ 10 ≤ max_val)
          | _, _ => false)

/-- Spec-side reformulation (section 4.2 of the spec): the manufacturer/model
string contains a known hint token. -/
def thinginoHintTriggersSpec (manufacturer model : String) : Bool :=
  thinginoHintTokens.any (fun tok => strContains (thinginoModelHint manufacturer model) tok)

/-- Spec-side reformulation (section 4.2 of the spec): an axis range with a
non-negative minimum and a maximum ≥ 10. -/
def thinginoAxisTriggersSpec (min_val max_val : Option ℚ) : Bool :=
  match min_val, max_val with
  | some a, some b => decide (0 ≤ a ∧ 10 ≤ b)
  | _, _ => false

/-! ### Thingino extras: labels, aux commands, toggle pairing
(`device.py` lines 1382–1490) -/

/-- Modelled from the spec: `normalize_thingino_label` lives in `util.py`, which
is not among the given sources.  Per the spec's toggle-pairing contract
("normalized name ends in \" on\"/\" off\""), normalization lowercases the label
and treats underscores and dashes as word separators. -/
def normalize_thingino_label (s : String) : String :=
  String.mk (s.data.map (fun c =>
    if c = '_' || c = '-' then ' ' else Char.toLower c))

/-- Modelled from the spec: `format_thingino_label` lives in `util.py`, which is
not among the given sources.  It renders a human label: words separated by
single spaces, each word capitalized ("light" becomes "Light"). -/
def format_thingino_label (s : String) : String :=
  String.intercalate " "
    (((normalize_thingino_label s).data.splitOn ' ').filter (fun w => w ≠ []) |>.map
      (fun w => String.capitalize (String.mk w)))

/-- Modelled from the spec: `thingino_icon_for_label` lives in `util.py`, which
is not among the given sources.  It derives an icon hint from a label; no claim
below depends on the hint's value. -/
def thingino_icon_for_label (_label : String) : Option String :=
  none

/-- `ThinginoAuxCommand` (models.py is not among the given sources; the fields
are those constructed and read by device.py). -/
structure ThinginoAuxCommand where
  name : String
  exec : String
  icon : Option String
deriving DecidableEq

/-- `ThinginoToggle` (models.py is not among the given sources; the fields are
those constructed and read by device.py). -/
structure ThinginoToggle where
  name : String
  on_exec : String
  off_exec : String
  icon : Option String
deriving DecidableEq

/-- `ThinginoRelay` (models.py is not among the given sources; the fields are
those constructed and read by device.py). -/
structure ThinginoRelay where
  index : Nat
  name : String
  openCmd : Option String
  closeCmd : Option String
  idle_state : Option String
  icon : Option String
  token : Option String
  via_onvif : Bool
deriving DecidableEq

/-- `_split_thingino_toggle_name` (device.py:1468): split a normalized name into
base and trailing "on"/"off" state. -/
def splitThinginoToggleName (name : String) : Option String × Option String :=
  let normalized := normalize_thingino_label name
  let parts := (normalized.data.splitOn ' ').filter (fun p => p ≠ []) |>.map String.mk
  if parts.length < 2 then (none, none)
  else
    let state := parts.getLastD ""
    if state ≠ "on" ∧ state ≠ "off" then (none, none)
    else
      let base := pyStrip (String.intercalate " " parts.dropLast)
      if base = "" then (none, none) else (some base, some state)

/-- One entry of the `pairs` dict of `_build_thingino_aux_toggles`: the inner
`dict` keyed by state; only the keys "on" and "off" ever occur (they are the
only states `_split_thingino_toggle_name` returns). -/
structure TogglePairSlots where
  onCmd : Option ThinginoAuxCommand
  offCmd : Option ThinginoAuxCommand
deriving DecidableEq

/-- `pairs.setdefault(base, {})[state] = command` (device.py:1448) on an
insertion-ordered association list, mirroring a Python `dict`. -/
def setPairState (pairs : List (String × TogglePairSlots)) (base state : String)
    (cmd : ThinginoAuxCommand) : List (String × TogglePairSlots) :=
  match pairs with
  | [] =>
    [(base, if state = "on" then ⟨some cmd, none⟩ else ⟨none, some cmd⟩)]
  | (b, slots) :: rest =>
    if b = base then
      (b, if state = "on" then ⟨some cmd, slots.offCmd⟩ else ⟨slots.onCmd, some cmd⟩) :: rest
    else (b, slots) :: setPairState rest base state cmd

/-- The first loop of `_build_thingino_aux_toggles` (device.py:1444–1448). -/
def buildTogglePairs (commands : List ThinginoAuxCommand) :
    List (String × TogglePairSlots) :=
  commands.foldl
    (fun pairs command =>
      match splitThinginoToggleName command.name with
      | (some base, some state) => setPairState pairs base state command
      | _ => pairs)
    []

/-- The second loop of `_build_thingino_aux_toggles` (device.py:1450–1463):
collect a `ThinginoToggle` for every base holding both states, and the
`used_exec` set (as a list; only membership is consulted). -/
def collectToggles : List (String × TogglePairSlots) →
    List ThinginoToggle × List String
  | [] => ([], [])
  | (base, slots) :: rest =>
    let out := collectToggles rest
    match slots.onCmd, slots.offCmd with
    | some onCmd, some offCmd =>
      (⟨format_thingino_label base, onCmd.exec, offCmd.exec,
        thingino_icon_for_label base⟩ :: out.1,
       onCmd.exec :: offCmd.exec :: out.2)
    | _, _ => out

/-- `_build_thingino_aux_toggles` (device.py:1439): toggles plus the remaining
standalone aux commands (`cmd.exec not in used_exec`). -/
def buildThinginoAuxToggles (commands : List ThinginoAuxCommand) :
    List ThinginoToggle × List ThinginoAuxCommand :=
  let pairs := buildTogglePairs commands
  let toggles_used := collectToggles pairs
  (toggles_used.1,
   commands.filter (fun cmd => ¬ toggles_used.2.contains cmd.exec))

/-- Proof-side lookup of a base's entry in the `pairs` association list (first
match wins; the keys stay unique, mirroring a Python `dict`). -/
def pairsEntry : List (String × TogglePairSlots) → String → Option TogglePairSlots
  | [], _ => none
  | (b, sl) :: rest, base => if b = base then some sl else pairsEntry rest base

/-- Proof-side predicate: does this command's name split to the given base
(with either state)? -/
def splitsToBase (base : String) (c : ThinginoAuxCommand) : Bool :=
  match splitThinginoToggleName c.name with
  | (some b, some _) => b = base
  | _ => false

/-- Proof-side: the slot update that `pairs.setdefault(base, {})[state] =
command` performs on one entry. -/
def applyPairSlot (e : Option TogglePairSlots) (state : String)
    (cmd : ThinginoAuxCommand) : TogglePairSlots :=
  match e with
  | none => if state = "on" then ⟨some cmd, none⟩ else ⟨none, some cmd⟩
  | some sl => if state = "on" then ⟨some cmd, sl.offCmd⟩ else ⟨sl.onCmd, some cmd⟩

/-- Proof-side: the effect one command has on a tracked base's entry. -/
def applyToggleStep (e : Option TogglePairSlots) (c : ThinginoAuxCommand) :
    Option TogglePairSlots :=
  match splitThinginoToggleName c.name with
  | (some _, some st) => some (applyPairSlot e st c)
  | _ => e

/-! ### Extras payload parsing and discovery
(`device.py` lines 1233–1308 and 1382–1437)

A JSON payload entry is either not a dict (skipped) or a dict; for a dict the
model carries, for each key device.py reads, the value of
`str(item.get(key) or "")` — the empty string when the key is absent or its
value falsy. -/

/-- One entry of the payload's `aux` or `relays` array. -/
inductive ExtrasItem where
  | notDict
  | item (name : String) (execCmd : String) (openCmd : String) (closeCmd : String)
      (idleState : String)
deriving DecidableEq

/-- The extras JSON document: the `aux` and `relays` arrays
(`payload.get("aux") or []`, `payload.get("relays") or []`; a missing or falsy
key is the empty list). -/
structure ExtrasPayload where
  aux : List ExtrasItem
  relays : List ExtrasItem
deriving DecidableEq

/-- The aux loop of `_parse_thingino_extras` (device.py:1387–1400). -/
def parseAuxItems (items : List ExtrasItem) : List ThinginoAuxCommand :=
  items.filterMap fun it =>
    match it with
    | .notDict => none
    | .item name execCmd _ _ _ =>
      let name := pyStrip name
      let execCmd := pyStrip execCmd
      if name = "" ∨ execCmd = "" then none
      else some ⟨format_thingino_label name, execCmd, thingino_icon_for_label name⟩

/-- `_derive_thingino_relay_name` (device.py:1482). -/
def deriveThinginoRelayName (openCmd closeCmd : String) (index : Nat) : String :=
  if pyStrip openCmd ≠ "" then ((pySplitChar (pyStrip openCmd) ' ').getD 0 "")
  else if pyStrip closeCmd ≠ "" then ((pySplitChar (pyStrip closeCmd) ' ').getD 0 "")
  else "Relay " ++ toString (index + 1)

/-- The relays loop of `_parse_thingino_extras` (device.py:1402–1421); the
`enumerate` index counts every entry, including skipped ones. -/
def parseRelayItems (items : List ExtrasItem) : List ThinginoRelay :=
  items.enum.filterMap fun p =>
    match p.2 with
    | .notDict => none
    | .item name _ openCmd closeCmd idleState =>
      let openCmd := pyStrip openCmd
      let closeCmd := pyStrip closeCmd
      if openCmd = "" ∨ closeCmd = "" then none
      else
        let name0 := pyStrip name
        let name1 := if name0 = "" then deriveThinginoRelayName openCmd closeCmd p.1
          else name0
        some ⟨p.1, format_thingino_label name1, some openCmd, some closeCmd,
          (if pyStrip idleState = "" then none else some (pyStrip idleState)),
          thingino_icon_for_label name1, none, false⟩

/-- The extras-related fields of `ONVIFDevice` touched by a discovery pass. -/
structure ExtrasState where
  thingino_relays : List ThinginoRelay
  thingino_aux_commands : List ThinginoAuxCommand
  thingino_aux_toggles : List ThinginoToggle
  thingino_extras_source : Option String
  thingino_ptz_mode : Bool
deriving DecidableEq

/-- `_parse_thingino_extras` (device.py:1382): rebuilds aux commands and
toggles, and overwrites `thingino_relays` when the payload contributed at least
one valid relay. -/
def parseThinginoExtras (payload : ExtrasPayload) (st : ExtrasState) : ExtrasState :=
  let aux_commands := parseAuxItems payload.aux
  let relays := parseRelayItems payload.relays
  let toggles_remaining := buildThinginoAuxToggles aux_commands
  let st1 := { st with
    thingino_aux_toggles := toggles_remaining.1,
    thingino_aux_commands := toggles_remaining.2 }
  if relays ≠ [] then { st1 with thingino_relays := relays } else st1

/-- The discovery pass `async_discover_thingino_extras` (device.py:1233–1308),
restricted to the state it mutates.  `onvifRelays` is what the ONVIF
relay-output probe `_async_discover_onvif_relays` returned; `payload` is the
JSON document obtained from the configured endpoint, the candidate endpoints,
or the manual JSON option (`none` when none of those produced a document; the
"manual" source label is folded into the same `"http"` default here since no
claim distinguishes them).  Config/endpoint bookkeeping and logging are
omitted. -/
def discoverThinginoExtras (onvifRelays : List ThinginoRelay)
    (payload : Option ExtrasPayload) (st : ExtrasState) : ExtrasState :=
  let st1 :=
    if onvifRelays ≠ [] then
      { st with thingino_relays := onvifRelays, thingino_extras_source := some "onvif" }
    else st
  match payload with
  | none => st1
  | some p =>
    let st2 :=
      if st1.thingino_extras_source = none then
        { st1 with thingino_extras_source := some "http" }
      else st1
    let st3 := parseThinginoExtras p st2
    { st3 with thingino_ptz_mode := true }

/-! ### HTTP payload parsing (`thingino_http.py` lines 19–65)

`parse_thingino_onvif_payload` / `parse_thingino_onvif_html` are embedded over
an abstract JSON reader `J` standing for `json.loads` (`none` models a raised
`json.JSONDecodeError`) and an abstract `unesc` standing for `html.unescape`
(both are Python standard library, not repository code; both paths feed the
same functions).  `.error ()` models a `JSONDecodeError` escaping
`parse_thingino_onvif_html` to its caller. -/

/-- The shape of a parsed JSON value, as far as the parsing helpers inspect it
(`isinstance(data, dict)`). -/
inductive JsonV where
  | obj (fields : List (String × JsonV))
  | arr (elems : List JsonV)
  | str (s : String)
  | num (q : ℚ)
  | boolean (b : Bool)
  | null

/-- `isinstance(data, dict)`. -/
def JsonV.isDict : JsonV → Bool
  | .obj _ => true
  | _ => false

/-- Case-insensitive literal match: does `s` start with `pat` once lowered?
(`pat` is given lowercase; models `re.IGNORECASE` on a literal.)  -/
def lowerMatchesAt (pat : List Char) (s : List Char) : Bool :=
  match pat, s with
  | [], _ => true
  | _ :: _, [] => false
  | p :: ps, c :: cs => p = Char.toLower c && lowerMatchesAt ps cs

/-- The characters of the literal `</pre>` (lowercase). -/
def closeTagChars : List Char :=
  ['<', '/', 'p', 'r', 'e', '>']

/-- `[^>]*>` after the `<pre` literal: consume up to and including the first
`>`; `none` when no `>` follows (the regex then fails at this start). -/
def takeAfterGt : List Char → Option (List Char)
  | [] => none
  | c :: cs => if c = '>' then some cs else takeAfterGt cs

/-- `(.*?)</pre>` with `re.DOTALL`/`IGNORECASE`: the shortest capture followed
by a case-insensitive `</pre>`; `none` when no closing tag occurs. -/
def captureToCloseTag : List Char → Option (List Char)
  | [] => none
  | c :: cs =>
    if lowerMatchesAt closeTagChars (c :: cs) then some []
    else (captureToCloseTag cs).map (fun l => c :: l)

/-- `_PRE_BLOCK_RE.search` (thingino_http.py:19): leftmost start position where
`<pre[^>]*>(.*?)</pre>` matches, returning the capture group. -/
def preBlockSearch : List Char → Option (List Char)
  | [] => none
  | c :: cs =>
    if lowerMatchesAt ['<', 'p', 'r', 'e'] (c :: cs) then
      match takeAfterGt ((c :: cs).drop 4) with
      | some afterGt =>
        match captureToCloseTag afterGt with
        | some capture => some capture
        | none => preBlockSearch cs
      | none => preBlockSearch cs
    else preBlockSearch cs

/-- Does a case-insensitive `</pre>` occur anywhere in the list? -/
def hasCloseTag : List Char → Bool
  | [] => false
  | c :: cs => lowerMatchesAt closeTagChars (c :: cs) || hasCloseTag cs

/-- `parse_thingino_onvif_html` (thingino_http.py:42). -/
def parseThinginoOnvifHtml (J : String → Option JsonV) (unesc : String → String)
    (text : String) : Except Unit (Option JsonV) :=
  match preBlockSearch text.data with
  | none => .ok none
  | some inner =>
    let payload := pyStrip (unesc (String.mk inner))
    if payload = "" then .ok none
    else
      let payload :=
        if ¬ pyStartswith (pyLStrip payload) "\x7b" then
          "\x7b" ++ pyStripCommas (pyStrip payload) ++ "\x7d"
        else payload
      match J payload with
      | some v => .ok (some v)
      | none => .error ()

/-- `parse_thingino_onvif_payload` (thingino_http.py:55). -/
def parseThinginoOnvifPayload (J : String → Option JsonV) (unesc : String → String)
    (text : String) : Except Unit (Option JsonV) :=
  let payload := pyStrip text
  if pyStartswith payload "\x7b" || pyStartswith payload "[" then
    match J payload with
    | some data => .ok (if data.isDict then some data else none)
    | none => parseThinginoOnvifHtml J unesc text
  else parseThinginoOnvifHtml J unesc text

/-- The characters of the wrapped body's closing part `</pre></html>`. -/
def closeHtmlChars : List Char :=
  "</pre></html>".data

/-! ### Concrete wrapped operations used by witnesses and counterexamples -/

/-- A concrete stand-in for `json.loads` that recognizes exactly the document
`{"aux":[]}` (as a JSON object with one empty-array field). -/
def sampleJsonReader : String → Option JsonV := fun s =>
  if s = "\x7b\"aux\":[]\x7d" then some (.obj [("aux", .arr [])]) else none

/-- An operation that disconnects on the first attempt and succeeds on the
retry. -/
def disconnectThenOk : Nat → OnvifOutcome Nat :=
  fun i => if i = 0 then .serverDisconnected "d" else .ok 42

/-- An operation that disconnects on every attempt. -/
def alwaysDisconnect : Nat → OnvifOutcome Nat :=
  fun i => .serverDisconnected ("d" ++ toString i)

/-- An operation that raises a non-transport exception on the first attempt. -/
def otherErrorOp : Nat → OnvifOutcome Nat :=
  fun _ => .otherError "fault"

/-- An operation that times out on the first attempt and would succeed on a
retry. -/
def timeoutThenOk : Nat → OnvifOutcome Nat :=
  fun i => if i = 0 then .timeout "t" else .ok 7

/-! ## Lemmas about `pyRound` and `ptz_clamp` -/

theorem floor_le_pyRound (x : ℚ) : ⌊x⌋ ≤ pyRound x := by
  simp only [pyRound]
  split_ifs <;> omega

theorem pyRound_le_floor_add_one (x : ℚ) : pyRound x ≤ ⌊x⌋ + 1 := by
  simp only [pyRound]
  split_ifs <;> omega

theorem pyRound_mono {x y : ℚ} (h : x ≤ y) : pyRound x ≤ pyRound y := by
  have hfle : ⌊x⌋ ≤ ⌊y⌋ := Int.floor_le_floor h
  rcases eq_or_lt_of_le hfle with he | hlt
  · simp only [pyRound]
    rw [← he]
    have hd : x - (⌊x⌋ : ℚ) ≤ y - (⌊x⌋ : ℚ) := by linarith
    split_ifs <;> first | omega | linarith
  · calc pyRound x ≤ ⌊x⌋ + 1 := pyRound_le_floor_add_one x
    _ ≤ ⌊y⌋ := by omega
    _ ≤ pyRound y := floor_le_pyRound y

theorem pyRound_nonneg {x : ℚ} (h : 0 ≤ x) : 0 ≤ pyRound x :=
  le_trans (Int.floor_nonneg.mpr h) (floor_le_pyRound x)

theorem pyRound_nonpos {x : ℚ} (h : x ≤ 0) : pyRound x ≤ 0 := by
  have hf : ⌊x⌋ ≤ 0 := Int.floor_nonpos h
  have hfx : (⌊x⌋ : ℚ) ≤ x := Int.floor_le x
  simp only [pyRound]
  split_ifs with h1 h2 h3
  · omega
  · have hneg : ⌊x⌋ ≤ -1 := by
      rcases lt_or_ge ⌊x⌋ 0 with hc | hc
      · omega
      · have hc2 : (0 : ℚ) ≤ (⌊x⌋ : ℚ) := by exact_mod_cast hc
        linarith
    omega
  · omega
  · have hneg : ⌊x⌋ ≤ -1 := by
      rcases lt_or_ge ⌊x⌋ 0 with hc | hc
      · omega
      · have hc2 : (0 : ℚ) ≤ (⌊x⌋ : ℚ) := by exact_mod_cast hc
        have h4 : x - (⌊x⌋ : ℚ) = 1/2 := by linarith [not_lt.mp h1, not_lt.mp h2]
        linarith
    omega

theorem one_le_pyRound {x : ℚ} (h : 1 ≤ x) : 1 ≤ pyRound x := by
  have h1 : (1 : ℤ) ≤ ⌊x⌋ := by
    rw [Int.le_floor]
    exact_mod_cast h
  exact le_trans h1 (floor_le_pyRound x)

theorem pyRound_le_neg_one {x : ℚ} (h : x < -1) : pyRound x ≤ -1 := by
  have h1 : ⌊x⌋ < -1 := Int.floor_lt.mpr (by exact_mod_cast h)
  calc pyRound x ≤ ⌊x⌋ + 1 := pyRound_le_floor_add_one x
  _ ≤ -1 := by omega

theorem ptz_clamp_mono {x y : ℚ} (o1 o2 : Option ℚ) (h : x ≤ y) :
    ptz_clamp x o1 o2 ≤ ptz_clamp y o1 o2 := by
  unfold ptz_clamp
  cases o1 <;> cases o2 <;> simp only []
  · exact h
  · exact min_le_min h le_rfl
  · exact max_le_max h le_rfl
  · exact min_le_min (max_le_max h le_rfl) le_rfl

theorem ptz_clamp_mem {x m M : ℚ} (h : m ≤ M) :
    m ≤ ptz_clamp x (some m) (some M) ∧ ptz_clamp x (some m) (some M) ≤ M := by
  unfold ptz_clamp
  exact ⟨le_min (le_max_right x m) h, min_le_right _ M⟩

/-! ## Claim theorems -/

/-- C1, counterexample: with the range `[0, 100]` (both bounds present,
`min = 0 ≥ 0`) and the normalized inputs `v1 = -1/10 < v2 = 1/10`, both in
`[-1, 1]`, the absolute mapping is not monotonic: it maps `-1/10` to `45` and
`1/10` to `10`. -/
theorem ptz_map_absolute_not_monotonic :
    (0 : ℚ) ≤ 0 ∧ (0 : ℚ) ≤ 100 ∧
    (-1 : ℚ) ≤ -1/10 ∧ (-1/10 : ℚ) < 1/10 ∧ (1/10 : ℚ) ≤ 1 ∧
    ptz_map_absolute (-1/10) (some 0) (some 100) = 45 ∧
    ptz_map_absolute (1/10) (some 0) (some 100) = 10 ∧
    ¬ ptz_map_absolute (-1/10) (some 0) (some 100) ≤
        ptz_map_absolute (1/10) (some 0) (some 100) := by
  norm_num [ptz_map_absolute, ptz_is_normalized, ptz_normalize_to_unit, ptz_clamp, pyRound]

theorem ptz_is_normalized_true {v : ℚ} (h1 : -(1001/1000) ≤ v) (h2 : v ≤ 1001/1000) :
    ptz_is_normalized (some v) = true := by
  simp only [ptz_is_normalized, decide_eq_true_eq]
  exact ⟨h1, h2⟩

theorem ptz_map_absolute_of_normalized {v : ℚ} (m M : ℚ)
    (h1 : -(1001/1000) ≤ v) (h2 : v ≤ 1001/1000) :
    ptz_map_absolute v (some m) (some M) =
      ptz_clamp ((pyRound (m + ptz_normalize_to_unit v (some m) * (M - m)) : ℤ) : ℚ)
        (some m) (some M) := by
  simp only [ptz_map_absolute, ptz_is_normalized_true h1 h2, if_true]

theorem ptz_normalize_to_unit_of_mem {v m : ℚ} (hm : 0 ≤ m) (h0 : 0 ≤ v) (h1 : v ≤ 1) :
    ptz_normalize_to_unit v (some m) = v := by
  simp only [ptz_normalize_to_unit, if_pos (⟨hm, h0, h1⟩ : 0 ≤ m ∧ 0 ≤ v ∧ v ≤ 1)]

theorem ptz_normalize_to_unit_of_neg {v : ℚ} (m : ℚ) (hneg : v < 0) :
    ptz_normalize_to_unit v (some m) = (v + 1) / 2 := by
  simp only [ptz_normalize_to_unit]
  rw [if_neg]
  rintro ⟨-, h0, -⟩
  linarith

/-- C1 (amended): with both bounds present, `0 ≤ min ≤ max`, the absolute
mapping is monotonic on normalized inputs lying in the same normalization
branch — both in `[0, 1]`, or both in `[-1, 0)` — and for every `v ∈ [-1, 1]`
the mapped value lies in `[min, max]`.  (Monotonicity across the branch
boundary fails: see the counterexample.) -/
theorem ptz_map_absolute_branch_mono_and_clamped
    (m M v1 v2 w1 w2 v : ℚ) (hm : 0 ≤ m) (hmM : m ≤ M)
    (h10 : 0 ≤ v1) (h12 : v1 < v2) (h21 : v2 ≤ 1)
    (hw1 : -1 ≤ w1) (hw12 : w1 < w2) (hw2 : w2 < 0)
    (hv1 : -1 ≤ v) (hv2 : v ≤ 1) :
    ptz_map_absolute v1 (some m) (some M) ≤ ptz_map_absolute v2 (some m) (some M) ∧
    ptz_map_absolute w1 (some m) (some M) ≤ ptz_map_absolute w2 (some m) (some M) ∧
    m ≤ ptz_map_absolute v (some m) (some M) ∧
    ptz_map_absolute v (some m) (some M) ≤ M := by
  have hMm : (0 : ℚ) ≤ M - m := by linarith
  refine ⟨?_, ?_, ?_, ?_⟩
  · rw [ptz_map_absolute_of_normalized m M (by linarith) (by linarith),
      ptz_map_absolute_of_normalized m M (by linarith) (by linarith),
      ptz_normalize_to_unit_of_mem hm h10 (by linarith),
      ptz_normalize_to_unit_of_mem hm (by linarith) h21]
    apply ptz_clamp_mono
    have hr : pyRound (m + v1 * (M - m)) ≤ pyRound (m + v2 * (M - m)) := by
      apply pyRound_mono
      nlinarith
    exact_mod_cast hr
  · rw [ptz_map_absolute_of_normalized m M (by linarith) (by linarith),
      ptz_map_absolute_of_normalized m M (by linarith) (by linarith),
      ptz_normalize_to_unit_of_neg m hw2,
      ptz_normalize_to_unit_of_neg m (by linarith : w1 < 0)]
    apply ptz_clamp_mono
    have hr : pyRound (m + (w1 + 1) / 2 * (M - m)) ≤ pyRound (m + (w2 + 1) / 2 * (M - m)) := by
      apply pyRound_mono
      nlinarith
    exact_mod_cast hr
  · rw [ptz_map_absolute_of_normalized m M (by linarith) (by linarith)]
    exact (ptz_clamp_mem hmM).1
  · rw [ptz_map_absolute_of_normalized m M (by linarith) (by linarith)]
    exact (ptz_clamp_mem hmM).2

/-- Witness for the amended C1 theorem at `min = 0`, `max = 100`,
`v1 = 0 < v2 = 1`, `w1 = -1 < w2 = -1/2`, `v = 1`. -/
theorem ptz_map_absolute_branch_mono_and_clamped_witness :
    ptz_map_absolute 0 (some 0) (some 100) ≤ ptz_map_absolute 1 (some 0) (some 100) ∧
    ptz_map_absolute (-1) (some 0) (some 100) ≤
      ptz_map_absolute (-1/2) (some 0) (some 100) ∧
    (0 : ℚ) ≤ ptz_map_absolute 1 (some 0) (some 100) ∧
    ptz_map_absolute 1 (some 0) (some 100) ≤ 100 :=
  ptz_map_absolute_branch_mono_and_clamped 0 100 0 1 (-1) (-1/2) 1
    (by norm_num) (by norm_num) (by norm_num) (by norm_num) (by norm_num)
    (by norm_num) (by norm_num) (by norm_num) (by norm_num) (by norm_num)

/-- C2: for a range with both bounds present whose derived max step is nonzero
and a nonzero input `v`, `_ptz_map_relative` returns a value with the sign of
`v` — in particular never exactly `0` — and for pan range `[0, 100]` with
normalized `v = 1/2` it returns `50`. -/
theorem ptz_map_relative_nonzero_and_sign (v m M : ℚ)
    (hms : ptz_max_step (some m) (some M) ≠ some 0) (hv : v ≠ 0) :
    (0 < v → 0 < ptz_map_relative v (some m) (some M)) ∧
    (v < 0 → ptz_map_relative v (some m) (some M) < 0) ∧
    ptz_map_relative v (some m) (some M) ≠ 0 ∧
    ptz_map_relative (1/2) (some 0) (some 100) = 50 := by
  set ms : ℚ := max |m| (max |M| |M - m|) with hmsdef
  have hms0 : ms ≠ 0 := by
    intro h
    exact hms (by simp only [ptz_max_step, ← hmsdef, h])
  have hmsnn : 0 ≤ ms := le_trans (abs_nonneg m) (le_max_left _ _)
  have hmspos : 0 < ms := lt_of_le_of_ne hmsnn (Ne.symm hms0)
  set steps0 : ℚ :=
    if ptz_is_normalized (some v) then ((pyRound (v * ms) : ℤ) : ℚ)
    else ((pyRound v : ℤ) : ℚ) with hsteps0
  have hunfold : ptz_map_relative v (some m) (some M) =
      max (-ms) (min ms (if steps0 = 0 ∧ v ≠ 0 then (if 0 < v then 1 else -1)
        else steps0)) := by
    simp only [ptz_map_relative, ptz_max_step, ← hmsdef, ← hsteps0]
  have hpos : 0 < v → 0 < ptz_map_relative v (some m) (some M) := by
    intro hvpos
    have hs0nn : 0 ≤ steps0 := by
      rw [hsteps0]
      split_ifs with hn
      · exact Int.cast_nonneg.mpr (pyRound_nonneg (le_of_lt (mul_pos hvpos hmspos)))
      · have hlt : 1001/1000 < v := by
          by_contra hle
          push_neg at hle
          exact hn (ptz_is_normalized_true (by linarith) hle)
        have h1 : (1 : ℤ) ≤ pyRound v := one_le_pyRound (by linarith)
        have h2 : (1 : ℚ) ≤ ((pyRound v : ℤ) : ℚ) := by exact_mod_cast h1
        linarith
    have hstep1 : 0 < (if steps0 = 0 ∧ v ≠ 0 then (if 0 < v then (1 : ℚ) else -1)
        else steps0) := by
      split_ifs with hc
      · norm_num
      · have hne : steps0 ≠ 0 := fun h0 => hc ⟨h0, hv⟩
        exact lt_of_le_of_ne hs0nn (Ne.symm hne)
    rw [hunfold]
    exact lt_of_lt_of_le (lt_min hmspos hstep1) (le_max_right _ _)
  have hneg : v < 0 → ptz_map_relative v (some m) (some M) < 0 := by
    intro hvneg
    have hs0np : steps0 ≤ 0 := by
      rw [hsteps0]
      split_ifs with hn
      · have : pyRound (v * ms) ≤ 0 :=
          pyRound_nonpos (le_of_lt (mul_neg_of_neg_of_pos hvneg hmspos))
        exact_mod_cast this
      · have hlt : v < -(1001/1000) := by
          by_contra hle
          push_neg at hle
          exact hn (ptz_is_normalized_true hle (by linarith))
        have h1 : pyRound v ≤ -1 := pyRound_le_neg_one (by linarith)
        have h2 : ((pyRound v : ℤ) : ℚ) ≤ -1 := by exact_mod_cast h1
        linarith
    have hstep1 : (if steps0 = 0 ∧ v ≠ 0 then (if 0 < v then (1 : ℚ) else -1)
        else steps0) < 0 := by
      by_cases hc : steps0 = 0 ∧ v ≠ 0
      · rw [if_pos hc, if_neg (not_lt.mpr (le_of_lt hvneg))]
        norm_num
      · rw [if_neg hc]
        have hne : steps0 ≠ 0 := fun h0 => hc ⟨h0, hv⟩
        exact lt_of_le_of_ne hs0np hne
    rw [hunfold]
    exact max_lt (by linarith) (lt_of_le_of_lt (min_le_right _ _) hstep1)
  refine ⟨hpos, hneg, ?_, ?_⟩
  · rcases lt_or_gt_of_ne hv with hlt | hgt
    · exact ne_of_lt (hneg hlt)
    · exact ne_of_gt (hpos hgt)
  · norm_num [ptz_map_relative, ptz_max_step, ptz_is_normalized, pyRound]

/-- Witness for the C2 theorem at pan range `[0, 100]` and `v = 1/2`. -/
theorem ptz_map_relative_nonzero_and_sign_witness :
    (0 < (1/2 : ℚ) → 0 < ptz_map_relative (1/2) (some 0) (some 100)) ∧
    ((1/2 : ℚ) < 0 → ptz_map_relative (1/2) (some 0) (some 100) < 0) ∧
    ptz_map_relative (1/2) (some 0) (some 100) ≠ 0 ∧
    ptz_map_relative (1/2) (some 0) (some 100) = 50 :=
  ptz_map_relative_nonzero_and_sign (1/2) 0 100
    (by simp only [ptz_max_step]; norm_num) (by norm_num)

/-- C3: with the default `retries = 2`, `_async_onvif_call` (i) returns the
successful result after a single disconnect-then-success, having reset the
client exactly once; (ii) raises the last disconnect error after `retries + 1`
attempts when every attempt disconnects; and (iii) propagates any exception
outside the `ServerDisconnectedError` class immediately, with no reset. -/
theorem async_onvif_call_retry_semantics (α : Type) :
    (∀ (f : Nat → OnvifOutcome α) (st : OnvifState) (e : String) (v : α),
      f 0 = .serverDisconnected e → f 1 = .ok v →
      asyncOnvifCall f 2 st =
        (.ok v, ⟨st.retryCount + 1, st.resetCount + 1⟩, 2)) ∧
    (∀ (f : Nat → OnvifOutcome α) (st : OnvifState) (e0 e1 e2 : String),
      f 0 = .serverDisconnected e0 → f 1 = .serverDisconnected e1 →
      f 2 = .serverDisconnected e2 →
      asyncOnvifCall f 2 st =
        (.raisedDisconnect e2, ⟨st.retryCount + 3, st.resetCount + 2⟩, 3)) ∧
    (∀ (f : Nat → OnvifOutcome α) (st : OnvifState) (e : String),
      f 0 = .otherError e →
      asyncOnvifCall f 2 st = (.raisedOther e, st, 1)) ∧
    (∀ (f : Nat → OnvifOutcome α) (st : OnvifState) (e : String),
      f 0 = .timeout e →
      asyncOnvifCall f 2 st = (.raisedTimeout e, st, 1)) := by
  refine ⟨?_, ?_, ?_, ?_⟩
  · intro f st e v h0 h1
    simp [asyncOnvifCall, onvifCallLoop, resetOnvifClient, h0, h1]
  · intro f st e0 e1 e2 h0 h1 h2
    simp [asyncOnvifCall, onvifCallLoop, resetOnvifClient, h0, h1, h2]
  · intro f st e h0
    simp [asyncOnvifCall, onvifCallLoop, h0]
  · intro f st e h0
    simp [asyncOnvifCall, onvifCallLoop, h0]

/-- Witness for the C3 theorem on concrete operations. -/
theorem async_onvif_call_retry_semantics_witness :
    asyncOnvifCall disconnectThenOk 2 ⟨0, 0⟩ = (.ok 42, ⟨1, 1⟩, 2) ∧
    asyncOnvifCall alwaysDisconnect 2 ⟨0, 0⟩ = (.raisedDisconnect "d2", ⟨3, 2⟩, 3) ∧
    asyncOnvifCall otherErrorOp 2 ⟨0, 0⟩ = (.raisedOther "fault", ⟨0, 0⟩, 1) :=
  ⟨(async_onvif_call_retry_semantics Nat).1 disconnectThenOk ⟨0, 0⟩ "d" 42 rfl rfl,
   (async_onvif_call_retry_semantics Nat).2.1 alwaysDisconnect ⟨0, 0⟩ "d0" "d1" "d2"
     rfl rfl rfl,
   (async_onvif_call_retry_semantics Nat).2.2.1 otherErrorOp ⟨0, 0⟩ "fault" rfl⟩

/-- C4, counterexample: an operation whose first attempt times out and whose
retry would succeed.  The claim predicts the call returns the successful
result (`ok 7`) after a client reset; the code propagates the timeout on the
first attempt instead, because the `except` clause catches only
`ServerDisconnectedError` and aiohttp timeout errors are not in that class. -/
theorem async_onvif_call_timeout_counterexample :
    asyncOnvifCall timeoutThenOk 2 ⟨0, 0⟩ = (.raisedTimeout "t", ⟨0, 0⟩, 1) ∧
    (asyncOnvifCall timeoutThenOk 2 ⟨0, 0⟩).1 ≠ OnvifCallResult.ok 7 := by
  decide

/-- C4 (amended): expiry of a call's timeout is NOT treated as a retryable
transport failure: a timeout on the first attempt propagates immediately,
unretried and with no client reset; only `ServerDisconnectedError` is
retried. -/
theorem async_onvif_call_timeout_propagates (α : Type)
    (f : Nat → OnvifOutcome α) (st : OnvifState) (e : String)
    (h0 : f 0 = .timeout e) :
    asyncOnvifCall f 2 st = (.raisedTimeout e, st, 1) := by
  simp [asyncOnvifCall, onvifCallLoop, h0]

/-- Witness for the amended C4 theorem. -/
theorem async_onvif_call_timeout_propagates_witness :
    asyncOnvifCall timeoutThenOk 2 ⟨5, 7⟩ = (.raisedTimeout "t", ⟨5, 7⟩, 1) :=
  async_onvif_call_timeout_propagates Nat timeoutThenOk ⟨5, 7⟩ "t" rfl

/-- C5: a device-reported `ONVIFError` raised by the dispatched move is never
re-raised by `async_perform_ptz`: a reason containing "Invalid position" is a
benign no-op, otherwise a reason containing "Bad Request" is logged as a
capability mismatch, and any other reason is logged as an error — the method
returns normally in every case. -/
theorem perform_ptz_fault_absorbed (err : OnvifFault) :
    (∀ e2, performPtzOutcome (.error err) ≠ .reraised e2) ∧
    (strContains (faultReasonText err) "Invalid position" = true →
      performPtzOutcome (.error err) = .noopInvalidPosition) ∧
    (strContains (faultReasonText err) "Invalid position" = false →
      strContains (faultReasonText err) "Bad Request" = true →
      performPtzOutcome (.error err) = .loggedCapabilityMismatch) ∧
    (strContains (faultReasonText err) "Invalid position" = false →
      strContains (faultReasonText err) "Bad Request" = false →
      performPtzOutcome (.error err) = .loggedError) := by
  refine ⟨?_, ?_, ?_, ?_⟩
  · intro e2
    simp only [performPtzOutcome, handlePtzFault]
    split_ifs <;> simp
  · intro h
    simp [performPtzOutcome, handlePtzFault, h]
  · intro h1 h2
    simp [performPtzOutcome, handlePtzFault, h1, h2]
  · intro h1 h2
    simp [performPtzOutcome, handlePtzFault, h1, h2]

/-- Witness for the C5 theorem on a concrete "Invalid position" fault. -/
theorem perform_ptz_fault_absorbed_witness :
    performPtzOutcome (.error ⟨some "PTZ: Invalid position", "soap error"⟩) ≠
      .reraised ⟨some "PTZ: Invalid position", "soap error"⟩ ∧
    performPtzOutcome (.error ⟨some "PTZ: Invalid position", "soap error"⟩) =
      .noopInvalidPosition :=
  ⟨(perform_ptz_fault_absorbed ⟨some "PTZ: Invalid position", "soap error"⟩).1 _,
   (perform_ptz_fault_absorbed ⟨some "PTZ: Invalid position", "soap error"⟩).2.1
     (by decide)⟩

/-- C6, counterexample: the ONVIF relay probe returns one relay, and the JSON
document fetched afterwards in the same discovery pass carries one valid relay
entry; the final relay list is the JSON one, not the ONVIF one — the ONVIF
relays do not take precedence. -/
theorem discover_relays_json_overrides_onvif_counterexample :
    (discoverThinginoExtras [⟨0, "Relay 1", none, none, none, none, some "r1", true⟩]
        (some ⟨[], [.item "" "" "gpio 1" "gpio 0" ""]⟩)
        ⟨[], [], [], none, false⟩).thingino_relays ≠
      [⟨0, "Relay 1", none, none, none, none, some "r1", true⟩] ∧
    (discoverThinginoExtras [⟨0, "Relay 1", none, none, none, none, some "r1", true⟩]
        (some ⟨[], [.item "" "" "gpio 1" "gpio 0" ""]⟩)
        ⟨[], [], [], none, false⟩).thingino_relays =
      parseRelayItems [.item "" "" "gpio 1" "gpio 0" ""] := by
  decide

/-- C6 (amended): in a discovery pass that obtained a JSON document, the
JSON relays replace any ONVIF-probed relays whenever the document yields at
least one valid relay entry; the ONVIF relays remain only when it yields none.
Aux commands and toggles always come from the JSON document alone. -/
theorem discover_extras_relay_precedence (onvifRelays : List ThinginoRelay)
    (payload : ExtrasPayload) (st : ExtrasState) :
    (discoverThinginoExtras onvifRelays (some payload) st).thingino_relays =
      (if parseRelayItems payload.relays ≠ [] then parseRelayItems payload.relays
       else if onvifRelays ≠ [] then onvifRelays else st.thingino_relays) ∧
    (discoverThinginoExtras onvifRelays (some payload) st).thingino_aux_toggles =
      (buildThinginoAuxToggles (parseAuxItems payload.aux)).1 ∧
    (discoverThinginoExtras onvifRelays (some payload) st).thingino_aux_commands =
      (buildThinginoAuxToggles (parseAuxItems payload.aux)).2 := by
  simp only [discoverThinginoExtras, parseThinginoExtras]
  split_ifs <;> simp_all

/-- C7, counterexample: a `PTZLimits` value whose zoom axis alone satisfies
`min ≥ 0` and `max ≥ 10` (pan and tilt bounds absent), with no hint token and
no extras side-channel: `_maybe_enable_thingino_ptz` leaves the mode off,
because the heuristic only inspects the pan and tilt ranges. -/
theorem maybe_enable_thingino_ptz_zoom_only_counterexample :
    (0 : ℚ) ≤ 0 ∧ (10 : ℚ) ≤ 20 ∧
    maybeEnableThinginoPtz false "" "" none ⟨none, none, none, none, some 0, some 20⟩ =
      false := by
  refine ⟨le_refl 0, by norm_num, ?_⟩
  decide

/-- C7 (amended): starting from mode off, the heuristic enables Thingino PTZ
mode exactly when the manufacturer/model hint matches, or an extras
side-channel source is present, or the pan or tilt axis (zoom is not
consulted) has a non-negative minimum and a maximum ≥ 10. -/
theorem maybe_enable_thingino_ptz_characterization (manufacturer model : String)
    (extrasSource : Option String) (limits : PTZLimits) :
    maybeEnableThinginoPtz false manufacturer model extrasSource limits =
      (thinginoHintTriggersSpec manufacturer model || extrasSource.isSome ||
       thinginoAxisTriggersSpec limits.pan_min limits.pan_max ||
       thinginoAxisTriggersSpec limits.tilt_min limits.tilt_max) := by
  simp only [maybeEnableThinginoPtz, thinginoHintTriggersSpec, thinginoAxisTriggersSpec,
    Bool.false_eq_true, if_false, List.any_cons, List.any_nil, Bool.or_false]
  split_ifs with h1 h2
  · simp [h1]
  · rw [Bool.not_eq_true] at h1
    simp [h1, h2]
  · rw [Bool.not_eq_true] at h1
    rw [Bool.not_eq_true] at h2
    simp [h1, h2]

theorem collectToggles_used_mem (pairs : List (String × TogglePairSlots)) (e : String) :
    e ∈ (collectToggles pairs).2 ↔
      ∃ t ∈ (collectToggles pairs).1, t.on_exec = e ∨ t.off_exec = e := by
  induction pairs with
  | nil => simp [collectToggles]
  | cons p rest ih =>
    obtain ⟨base, slots⟩ := p
    cases hon : slots.onCmd <;> cases hoff : slots.offCmd <;>
      simp [collectToggles, hon, hoff, ih, or_assoc, eq_comm]

theorem pairsEntry_setPairState_self (pairs : List (String × TogglePairSlots))
    (b s : String) (cmd : ThinginoAuxCommand) :
    pairsEntry (setPairState pairs b s cmd) b =
      some (applyPairSlot (pairsEntry pairs b) s cmd) := by
  induction pairs with
  | nil => simp [setPairState, pairsEntry, applyPairSlot]
  | cons p rest ih =>
    obtain ⟨b1, sl⟩ := p
    by_cases hb : b1 = b
    · subst hb
      simp [setPairState, pairsEntry, applyPairSlot]
    · simp [setPairState, pairsEntry, hb, ih]

theorem pairsEntry_setPairState_other (pairs : List (String × TogglePairSlots))
    {base b : String} (s : String) (cmd : ThinginoAuxCommand) (hne : base ≠ b) :
    pairsEntry (setPairState pairs b s cmd) base = pairsEntry pairs base := by
  induction pairs with
  | nil => simp [setPairState, pairsEntry, Ne.symm hne]
  | cons p rest ih =>
    obtain ⟨b1, sl⟩ := p
    by_cases hb : b1 = b
    · subst hb
      simp [setPairState, pairsEntry, Ne.symm hne]
    · simp [setPairState, pairsEntry, hb, ih]

theorem buildPairs_entry_comm (base : String) (commands : List ThinginoAuxCommand) :
    ∀ (pairs0 : List (String × TogglePairSlots)),
    pairsEntry
      (commands.foldl
        (fun pairs command =>
          match splitThinginoToggleName command.name with
          | (some b, some state) => setPairState pairs b state command
          | _ => pairs)
        pairs0) base =
    (commands.filter (splitsToBase base)).foldl applyToggleStep
      (pairsEntry pairs0 base) := by
  induction commands with
  | nil => intro pairs0; simp
  | cons c cs ih =>
    intro pairs0
    simp only [List.foldl_cons, List.filter_cons]
    rcases h : splitThinginoToggleName c.name with ⟨_ | b, _ | st⟩
    · simp only [h, splitsToBase]
      rw [ih pairs0]
      simp [splitsToBase, h]
    · simp only [h, splitsToBase]
      rw [ih pairs0]
      simp [splitsToBase, h]
    · simp only [h, splitsToBase]
      rw [ih pairs0]
      simp [splitsToBase, h]
    · by_cases hb : b = base
      · subst hb
        simp only [h]
        rw [ih (setPairState pairs0 b st c)]
        have hf : splitsToBase b c = true := by simp [splitsToBase, h]
        rw [if_pos hf, List.foldl_cons, pairsEntry_setPairState_self]
        have hstep : applyToggleStep (pairsEntry pairs0 b) c =
            some (applyPairSlot (pairsEntry pairs0 b) st c) := by
          simp [applyToggleStep, h]
        rw [hstep]
      · simp only [h]
        rw [ih (setPairState pairs0 b st c),
          pairsEntry_setPairState_other pairs0 st c (Ne.symm hb)]
        have hf : splitsToBase base c = false := by simp [splitsToBase, h, hb]
        rw [if_neg (by simp [hf])]

theorem setPairState_keys (pairs : List (String × TogglePairSlots))
    (b s : String) (cmd : ThinginoAuxCommand) :
    (setPairState pairs b s cmd).map Prod.fst =
      if b ∈ pairs.map Prod.fst then pairs.map Prod.fst
      else pairs.map Prod.fst ++ [b] := by
  induction pairs with
  | nil => simp [setPairState]
  | cons p rest ih =>
    obtain ⟨b1, sl⟩ := p
    by_cases hb : b1 = b
    · subst hb
      simp [setPairState]
    · simp only [setPairState, if_neg hb, List.map_cons, ih, List.mem_cons]
      by_cases hmem : b ∈ rest.map Prod.fst <;>
        simp [hmem, hb, Ne.symm hb]

theorem setPairState_keys_nodup (pairs : List (String × TogglePairSlots))
    (b s : String) (cmd : ThinginoAuxCommand)
    (h : (pairs.map Prod.fst).Nodup) :
    ((setPairState pairs b s cmd).map Prod.fst).Nodup := by
  rw [setPairState_keys]
  split_ifs with hmem
  · exact h
  · simp [List.nodup_append, h, hmem]

theorem buildPairs_keys_nodup (commands : List ThinginoAuxCommand) :
    ((buildTogglePairs commands).map Prod.fst).Nodup := by
  have main : ∀ (cs : List ThinginoAuxCommand)
      (pairs0 : List (String × TogglePairSlots)),
      (pairs0.map Prod.fst).Nodup →
      ((cs.foldl
        (fun pairs command =>
          match splitThinginoToggleName command.name with
          | (some b, some state) => setPairState pairs b state command
          | _ => pairs)
        pairs0).map Prod.fst).Nodup := by
    intro cs
    induction cs with
    | nil => intro pairs0 h; simpa using h
    | cons c cs ih =>
      intro pairs0 h
      simp only [List.foldl_cons]
      apply ih
      rcases hs : splitThinginoToggleName c.name with ⟨_ | b, _ | st⟩
      · simpa [hs] using h
      · simpa [hs] using h
      · simpa [hs] using h
      · simp only [hs]
        exact setPairState_keys_nodup pairs0 b st c h
  exact main commands [] (by simp)

theorem pairsEntry_mem_keys :
    ∀ {pairs : List (String × TogglePairSlots)} {base : String}
      {e : TogglePairSlots}, pairsEntry pairs base = some e →
      base ∈ pairs.map Prod.fst := by
  intro pairs
  induction pairs with
  | nil =>
    intro base e h
    simp [pairsEntry] at h
  | cons p rest ih =>
    intro base e h
    obtain ⟨b, sl⟩ := p
    by_cases hb : b = base
    · simp [hb]
    · simp only [pairsEntry, if_neg hb] at h
      simp [ih h]

theorem pairsEntry_complete_toggle_mem :
    ∀ {pairs : List (String × TogglePairSlots)} {base : String}
      {cOn cOff : ThinginoAuxCommand},
      pairsEntry pairs base = some ⟨some cOn, some cOff⟩ →
      (⟨format_thingino_label base, cOn.exec, cOff.exec,
        thingino_icon_for_label base⟩ : ThinginoToggle) ∈
        (collectToggles pairs).1 := by
  intro pairs
  induction pairs with
  | nil =>
    intro base cOn cOff h
    simp [pairsEntry] at h
  | cons p rest ih =>
    intro base cOn cOff h
    obtain ⟨b, sl⟩ := p
    by_cases hb : b = base
    · subst hb
      have h2 : some sl = some (⟨some cOn, some cOff⟩ : TogglePairSlots) := by
        rw [← h]
        simp [pairsEntry]
      obtain rfl := Option.some.inj h2
      simp [collectToggles]
    · simp only [pairsEntry, if_neg hb] at h
      have hmem := ih h
      cases hon : sl.onCmd <;> cases hoff : sl.offCmd <;>
        simp [collectToggles, hon, hoff, hmem]

/-- C8, counterexample: the universal claim fails in two ways.  With
commands `Light On`/`x`, `Light Off`/`y`, `Siren On`/`x` — a pair with
distinct exec strings plus an unpaired command — the unpaired `Siren On`
does NOT remain standalone, because removal is by exec string and its exec
collides with the paired `Light On`.  With `Light On`/`a`, `Light Off`/`b`,
`Light On`/`c`, the later same-name command overwrites the pair's `on` slot:
the produced toggle carries `c`, not the pair's `a`, and the shadowed paired
command `Light On`/`a` remains in the standalone list. -/
theorem build_toggles_pairing_counterexample :
    ("x" : String) ≠ "y" ∧
    buildThinginoAuxToggles
      [⟨"Light On", "x", none⟩, ⟨"Light Off", "y", none⟩,
       ⟨"Siren On", "x", none⟩] =
      ([⟨"Light", "x", "y", none⟩], []) ∧
    (⟨"Siren On", "x", none⟩ : ThinginoAuxCommand) ∉
      (buildThinginoAuxToggles
        [⟨"Light On", "x", none⟩, ⟨"Light Off", "y", none⟩,
         ⟨"Siren On", "x", none⟩]).2 ∧
    ("a" : String) ≠ "b" ∧
    buildThinginoAuxToggles
      [⟨"Light On", "a", none⟩, ⟨"Light Off", "b", none⟩,
       ⟨"Light On", "c", none⟩] =
      ([⟨"Light", "c", "b", none⟩], [⟨"Light On", "a", none⟩]) ∧
    (⟨"Light", "a", "b", none⟩ : ThinginoToggle) ∉
      (buildThinginoAuxToggles
        [⟨"Light On", "a", none⟩, ⟨"Light Off", "b", none⟩,
         ⟨"Light On", "c", none⟩]).1 ∧
    (⟨"Light On", "a", none⟩ : ThinginoAuxCommand) ∈
      (buildThinginoAuxToggles
        [⟨"Light On", "a", none⟩, ⟨"Light Off", "b", none⟩,
         ⟨"Light On", "c", none⟩]).2 := by
  decide

/-- C8 (amended): for every aux-command list whose commands splitting to a
given base are exactly one `on` command and one `off` command (in either
order, with distinct exec strings), `_build_thingino_aux_toggles` keeps
exactly one pairing entry for that base, that entry holds the pair, the
produced toggles include the toggle carrying the pair's exec strings, neither
paired command remains in the standalone list, and any command whose exec
differs from the `on_exec` and `off_exec` of every produced toggle — in
particular an unpaired command under that proviso — remains standalone. -/
theorem build_toggles_pairs_on_off (commands : List ThinginoAuxCommand)
    (base : String) (cOn cOff : ThinginoAuxCommand)
    (hfil : commands.filter (splitsToBase base) = [cOn, cOff] ∨
            commands.filter (splitsToBase base) = [cOff, cOn])
    (hOn : splitThinginoToggleName cOn.name = (some base, some "on"))
    (hOff : splitThinginoToggleName cOff.name = (some base, some "off"))
    (hdist : cOn.exec ≠ cOff.exec) :
    ((buildTogglePairs commands).map Prod.fst).count base = 1 ∧
    pairsEntry (buildTogglePairs commands) base = some ⟨some cOn, some cOff⟩ ∧
    (⟨format_thingino_label base, cOn.exec, cOff.exec,
      thingino_icon_for_label base⟩ : ThinginoToggle) ∈
      (buildThinginoAuxToggles commands).1 ∧
    cOn ∉ (buildThinginoAuxToggles commands).2 ∧
    cOff ∉ (buildThinginoAuxToggles commands).2 ∧
    ∀ c ∈ commands,
      (∀ t ∈ (buildThinginoAuxToggles commands).1,
        t.on_exec ≠ c.exec ∧ t.off_exec ≠ c.exec) →
      c ∈ (buildThinginoAuxToggles commands).2 := by
  have hentry : pairsEntry (buildTogglePairs commands) base =
      some ⟨some cOn, some cOff⟩ := by
    rw [show buildTogglePairs commands =
        commands.foldl
          (fun pairs command =>
            match splitThinginoToggleName command.name with
            | (some b, some state) => setPairState pairs b state command
            | _ => pairs)
          [] from rfl,
      buildPairs_entry_comm base commands []]
    rcases hfil with hf | hf <;> rw [hf] <;>
      simp [applyToggleStep, applyPairSlot, hOn, hOff, pairsEntry]
  have hcount : ((buildTogglePairs commands).map Prod.fst).count base = 1 :=
    List.count_eq_one_of_mem (buildPairs_keys_nodup commands)
      (pairsEntry_mem_keys hentry)
  have htog : (⟨format_thingino_label base, cOn.exec, cOff.exec,
      thingino_icon_for_label base⟩ : ThinginoToggle) ∈
      (collectToggles (buildTogglePairs commands)).1 :=
    pairsEntry_complete_toggle_mem hentry
  have husedOn : cOn.exec ∈ (collectToggles (buildTogglePairs commands)).2 :=
    (collectToggles_used_mem _ _).mpr ⟨_, htog, Or.inl rfl⟩
  have husedOff : cOff.exec ∈ (collectToggles (buildTogglePairs commands)).2 :=
    (collectToggles_used_mem _ _).mpr ⟨_, htog, Or.inr rfl⟩
  have hremaining : (buildThinginoAuxToggles commands).2 =
      commands.filter (fun cmd =>
        ¬ (collectToggles (buildTogglePairs commands)).2.contains cmd.exec) := rfl
  refine ⟨hcount, hentry, htog, ?_, ?_, ?_⟩
  · intro hmem
    rw [hremaining] at hmem
    have hp := (List.mem_filter.mp hmem).2
    exact (of_decide_eq_true hp) (List.elem_iff.mpr husedOn)
  · intro hmem
    rw [hremaining] at hmem
    have hp := (List.mem_filter.mp hmem).2
    exact (of_decide_eq_true hp) (List.elem_iff.mpr husedOff)
  · intro c hc hall
    rw [hremaining]
    refine List.mem_filter.mpr ⟨hc, decide_eq_true ?_⟩
    intro hcont
    obtain ⟨t, ht, hor⟩ :=
      (collectToggles_used_mem _ _).mp (List.elem_iff.mp hcont)
    rcases hor with h1 | h1
    · exact (hall t ht).1 h1
    · exact (hall t ht).2 h1

/-- Witness for the amended C8 theorem on the spec's Light/Siren example. -/
theorem build_toggles_pairs_on_off_witness :
    ((buildTogglePairs
        [⟨"Light On", "led on", none⟩, ⟨"Light Off", "led off", none⟩,
         ⟨"Siren On", "siren 1", none⟩]).map Prod.fst).count "light" = 1 ∧
    pairsEntry
        (buildTogglePairs
          [⟨"Light On", "led on", none⟩, ⟨"Light Off", "led off", none⟩,
           ⟨"Siren On", "siren 1", none⟩]) "light" =
      some ⟨some ⟨"Light On", "led on", none⟩,
        some ⟨"Light Off", "led off", none⟩⟩ ∧
    (⟨format_thingino_label "light", "led on", "led off",
        thingino_icon_for_label "light"⟩ : ThinginoToggle) ∈
      (buildThinginoAuxToggles
        [⟨"Light On", "led on", none⟩, ⟨"Light Off", "led off", none⟩,
         ⟨"Siren On", "siren 1", none⟩]).1 ∧
    (⟨"Light On", "led on", none⟩ : ThinginoAuxCommand) ∉
      (buildThinginoAuxToggles
        [⟨"Light On", "led on", none⟩, ⟨"Light Off", "led off", none⟩,
         ⟨"Siren On", "siren 1", none⟩]).2 ∧
    (⟨"Light Off", "led off", none⟩ : ThinginoAuxCommand) ∉
      (buildThinginoAuxToggles
        [⟨"Light On", "led on", none⟩, ⟨"Light Off", "led off", none⟩,
         ⟨"Siren On", "siren 1", none⟩]).2 ∧
    (⟨"Siren On", "siren 1", none⟩ : ThinginoAuxCommand) ∈
      (buildThinginoAuxToggles
        [⟨"Light On", "led on", none⟩, ⟨"Light Off", "led off", none⟩,
         ⟨"Siren On", "siren 1", none⟩]).2 := by
  have h := build_toggles_pairs_on_off
    [⟨"Light On", "led on", none⟩, ⟨"Light Off", "led off", none⟩,
     ⟨"Siren On", "siren 1", none⟩]
    "light" ⟨"Light On", "led on", none⟩ ⟨"Light Off", "led off", none⟩
    (Or.inl (by decide)) (by decide) (by decide) (by decide)
  exact ⟨h.1, h.2.1, h.2.2.1, h.2.2.2.1, h.2.2.2.2.1,
    h.2.2.2.2.2 ⟨"Siren On", "siren 1", none⟩ (by decide) (by decide)⟩

/-- C10: `_build_thingino_aux_toggles` removes standalone commands by exec
string — the remaining commands are exactly those whose exec differs from
every `on_exec`/`off_exec` of a produced toggle — so a command that forms no
on/off pair itself but shares its exec with a paired command (here "Beep" with
exec "x") is silently dropped from the standalone list. -/
theorem build_toggles_remaining_by_exec (commands : List ThinginoAuxCommand) :
    (buildThinginoAuxToggles commands).2 =
      commands.filter (fun cmd =>
        decide (∀ t ∈ (buildThinginoAuxToggles commands).1,
          t.on_exec ≠ cmd.exec ∧ t.off_exec ≠ cmd.exec)) ∧
    buildThinginoAuxToggles
      [⟨"Light On", "x", none⟩, ⟨"Light Off", "y", none⟩, ⟨"Beep", "x", none⟩] =
    ([⟨"Light", "x", "y", none⟩], []) := by
  constructor
  · simp only [buildThinginoAuxToggles]
    apply List.filter_congr
    intro cmd _
    rw [decide_eq_decide]
    simp only [List.contains, List.elem_iff, collectToggles_used_mem]
    push_neg
    simp [not_or]
  · decide

/-! ## Lemmas for the HTML-wrapped payload claim -/

theorem string_data_ext {s r : String} (h : s.data = r.data) : s = r := by
  cases s
  cases r
  exact congrArg String.mk (by simpa using h)

theorem dropWhile_append_single (p : Char → Bool) (x : Char) (l : List Char)
    (hx : p x = false) : (l ++ [x]).dropWhile p = l.dropWhile p ++ [x] := by
  induction l with
  | nil => simp [List.dropWhile_cons, hx]
  | cons c cs ih =>
    by_cases hc : p c
    · simp [List.dropWhile_cons, hc, ih]
    · simp [List.dropWhile_cons, hc]

theorem dropTrailing_cons_of_neg (p : Char → Bool) (x : Char) (xs : List Char)
    (hx : p x = false) : dropTrailing p (x :: xs) = x :: dropTrailing p xs := by
  unfold dropTrailing
  rw [List.reverse_cons, dropWhile_append_single p x _ hx, List.reverse_append]
  simp

theorem lowerMatchesAt_append_of_le {pat l : List Char} (ext : List Char)
    (h : pat.length ≤ l.length) :
    lowerMatchesAt pat (l ++ ext) = lowerMatchesAt pat l := by
  induction pat generalizing l with
  | nil => simp [lowerMatchesAt]
  | cons p ps ih =>
    cases l with
    | nil => simp at h
    | cons c cs =>
      simp only [List.cons_append, lowerMatchesAt, List.append_eq]
      rw [ih (by simpa using h)]

theorem short_close_append_false :
    ∀ (l : List Char), l ≠ [] → l.length ≤ 5 →
      lowerMatchesAt closeTagChars (l ++ closeHtmlChars) = false
  | [], hne, _ => absurd rfl hne
  | [c1], _, _ => by simp [closeTagChars, closeHtmlChars, lowerMatchesAt]
  | [c1, c2], _, _ => by simp [closeTagChars, closeHtmlChars, lowerMatchesAt]
  | [c1, c2, c3], _, _ => by simp [closeTagChars, closeHtmlChars, lowerMatchesAt]
  | [c1, c2, c3, c4], _, _ => by simp [closeTagChars, closeHtmlChars, lowerMatchesAt]
  | [c1, c2, c3, c4, c5], _, _ => by
    simp [closeTagChars, closeHtmlChars, lowerMatchesAt]
  | c1 :: c2 :: c3 :: c4 :: c5 :: c6 :: rest, _, hlen => by
    simp [List.length_cons] at hlen

theorem captureToCloseTag_no_close (l : List Char) (h : hasCloseTag l = false) :
    captureToCloseTag (l ++ closeHtmlChars) = some l := by
  induction l with
  | nil =>
    rw [List.nil_append]
    decide
  | cons c cs ih =>
    have hsplit : lowerMatchesAt closeTagChars (c :: cs) = false ∧
        hasCloseTag cs = false := by
      simpa only [hasCloseTag, Bool.or_eq_false_iff] using h
    have hcond : lowerMatchesAt closeTagChars ((c :: cs) ++ closeHtmlChars) = false := by
      rcases Nat.lt_or_ge (c :: cs).length 6 with hs | hs
      · exact short_close_append_false (c :: cs) (by simp) (by omega)
      · rw [lowerMatchesAt_append_of_le _ (by simpa [closeTagChars] using hs)]
        exact hsplit.1
    rw [List.cons_append] at hcond ⊢
    simp only [captureToCloseTag, hcond, Bool.false_eq_true, if_false, ih hsplit.2]
    rfl

theorem preBlockSearch_wrapped (t : List Char) (h : hasCloseTag t = false) :
    preBlockSearch
      ('<' :: 'h' :: 't' :: 'm' :: 'l' :: '>' :: '<' :: 'p' :: 'r' :: 'e' :: '>' :: (t ++ closeHtmlChars)) =
      some t := by
  have hcap := captureToCloseTag_no_close t h
  simp [preBlockSearch, lowerMatchesAt, takeAfterGt, hcap]

/-- C9: a JSON-object text `t` (no HTML entities — `html.unescape` leaves it
unchanged — and no case-insensitive `</pre>` inside) parses identically
whether presented raw or wrapped as `<html><pre>…</pre></html>`, and both
parses return the JSON object. -/
theorem parse_payload_html_wrap_equiv (J : String → Option JsonV)
    (unesc : String → String) (t : String) (d : List (String × JsonV))
    (hJ : J (pyStrip t) = some (.obj d))
    (hbrace : pyStartswith (pyStrip t) "\x7b" = true)
    (hunesc : unesc t = t)
    (hnotag : hasCloseTag t.data = false) :
    parseThinginoOnvifPayload J unesc ("<html><pre>" ++ t ++ "</pre></html>") =
      parseThinginoOnvifPayload J unesc t ∧
    parseThinginoOnvifPayload J unesc t = .ok (some (.obj d)) := by
  obtain ⟨cs, hcs⟩ : ∃ cs, (pyStrip t).data = '\x7b' :: cs := by
    have h := hbrace
    rw [pyStartswith] at h
    cases hcase : (pyStrip t).data with
    | nil =>
      rw [hcase] at h
      simp [List.isPrefixOf] at h
    | cons c cs =>
      rw [hcase] at h
      simp [List.isPrefixOf] at h
      exact ⟨cs, by rw [h]⟩

  have hraw : parseThinginoOnvifPayload J unesc t = .ok (some (.obj d)) := by
    simp only [parseThinginoOnvifPayload, hbrace, Bool.true_or, if_true, hJ,
      JsonV.isDict]
  refine ⟨?_, hraw⟩
  have hwdata : ("<html><pre>" ++ t ++ "</pre></html>").data =
      '<' :: 'h' :: 't' :: 'm' :: 'l' :: '>' :: '<' :: 'p' :: 'r' :: 'e' :: '>' :: (t.data ++ closeHtmlChars) := by
    simp [String.data_append, closeHtmlChars]
  have hwstrip : ∃ ws, (pyStrip ("<html><pre>" ++ t ++ "</pre></html>")).data =
      '<' :: ws := by
    refine ⟨dropTrailing isPySpace
      ('h' :: 't' :: 'm' :: 'l' :: '>' :: '<' :: 'p' :: 'r' :: 'e' :: '>' :: (t.data ++ closeHtmlChars)), ?_⟩
    show pyStripList ("<html><pre>" ++ t ++ "</pre></html>").data = _
    rw [pyStripList, hwdata, List.dropWhile_cons]
    simp only [isPySpace]
    rw [if_neg (by decide)]
    rw [dropTrailing_cons_of_neg _ _ _ (by decide)]
  obtain ⟨ws, hws⟩ := hwstrip
  have hwcond1 : pyStartswith (pyStrip ("<html><pre>" ++ t ++ "</pre></html>"))
      "\x7b" = false := by
    rw [pyStartswith, hws]
    simp [List.isPrefixOf]
  have hwcond2 : pyStartswith (pyStrip ("<html><pre>" ++ t ++ "</pre></html>"))
      "[" = false := by
    rw [pyStartswith, hws]
    simp [List.isPrefixOf]
  have hpre : preBlockSearch ("<html><pre>" ++ t ++ "</pre></html>").data =
      some t.data := by
    rw [hwdata]
    exact preBlockSearch_wrapped t.data hnotag
  have hmk : String.mk t.data = t := rfl
  have hne : pyStrip t ≠ "" := by
    intro h0
    rw [h0] at hcs
    simp at hcs
  have hl : pyLStrip (pyStrip t) = pyStrip t := by
    apply string_data_ext
    show (pyStrip t).data.dropWhile isPySpace = (pyStrip t).data
    rw [hcs, List.dropWhile_cons]
    simp only [isPySpace]
    rw [if_neg (by decide)]
  have hhtml : parseThinginoOnvifHtml J unesc ("<html><pre>" ++ t ++ "</pre></html>") =
      .ok (some (.obj d)) := by
    simp only [parseThinginoOnvifHtml, hpre, hmk, hunesc]
    rw [if_neg hne]
    simp only [hl, hbrace, not_true, if_false, hJ]
  calc parseThinginoOnvifPayload J unesc ("<html><pre>" ++ t ++ "</pre></html>")
      = parseThinginoOnvifHtml J unesc ("<html><pre>" ++ t ++ "</pre></html>") := by
        simp only [parseThinginoOnvifPayload, hwcond1, hwcond2, Bool.or_self,
          Bool.false_eq_true, if_false]
    _ = .ok (some (.obj d)) := hhtml
    _ = parseThinginoOnvifPayload J unesc t := hraw.symm

/-- Witness for the C9 theorem at the concrete document of the spec's example. -/
theorem parse_payload_html_wrap_equiv_witness :
    parseThinginoOnvifPayload sampleJsonReader id
        ("<html><pre>" ++ "\x7b\"aux\":[]\x7d" ++ "</pre></html>") =
      parseThinginoOnvifPayload sampleJsonReader id "\x7b\"aux\":[]\x7d" ∧
    parseThinginoOnvifPayload sampleJsonReader id "\x7b\"aux\":[]\x7d" =
      .ok (some (.obj [("aux", .arr [])])) :=
  parse_payload_html_wrap_equiv sampleJsonReader id "\x7b\"aux\":[]\x7d"
    [("aux", .arr [])] rfl rfl rfl rfl

end ThinginoOnvif
